import Mathlib

/-!
A shallow embedding of `src/main.rs` of the vio repository (a storage
throughput stress tool simulating frame-paced video playback), together
with theorems settling the specification claims about it.

Modelling conventions:
* `SteadyTime` instants and `Duration` values are integers counting
  nanoseconds.
* The `f32` frame rate is modelled by an exact rational;
  `Duration::microseconds((1e6 / rate) as i64)` becomes
  `1000 * ⌊10^6 / rate⌋` nanoseconds (for a positive rate the `as i64`
  cast truncates toward zero, which is the floor).  Every concrete rate
  appearing in a counterexample below is chosen so that rounding
  `1e6 / rate` to the nearest `f32` does not change the truncated value.
* The prefetch channel (the `sync_channel` receiver) is modelled as the
  list of receives the background `read_file` thread will deliver; each
  entry carries the wall-clock nanoseconds that the blocking `recv` takes
  together with the byte count it returns.  An exhausted list models the
  closed channel (`recv` returning `Err`, i.e. end of stream).
* Time advances in the model exactly through the instrumented `recv`
  durations and through `sleep_ms` (modelled as sleeping exactly the
  requested amount); the `SteadyTime::now()` samples themselves take no
  time.
-/

namespace Vio

/-- The prefetch state of the pacing thread, Rust
`struct Buffered { local, chan }`.  The Rust field `local` is named `loc`
here (`local` is a Lean keyword). -/
structure Buffered where
  loc  : Nat
  chan : List (Nat × Nat)
deriving DecidableEq

/-- `read_buffer` from `src/main.rs` lines 219-231, with the channel
receives made explicit.  Faithful to the source: if
`buffered.local > amount` the request is served from local credit alone;
otherwise `amount -= buffered.local` and the code blocks on
`buffered.chan.recv()`, recursing with the fresh chunk as the new credit,
and an `Err` (closed channel) yields `true` (EOF) with `local` left as it
was.  Returns `(eof, new buffered state, nanoseconds spent blocked in
recv)`; the third component is timing instrumentation, the first two are
the result and effect of the source function. -/
def read_buffer (loc : Nat) (chan : List (Nat × Nat)) (amount : Nat) :
    Bool × Buffered × Nat :=
  if amount < loc then
    (false, ⟨loc - amount, chan⟩, 0)
  else
    match chan with
    | [] => (true, ⟨loc, []⟩, 0)
    | (c, more) :: rest =>
      let r := read_buffer more rest (amount - loc)
      (r.1, r.2.1, c + r.2.2)

/-- `frame` from `src/main.rs` lines 241-261.  Arguments mirror
`frame(buffered, frame_sz, frame_end, fails)`, with the current instant
`now` passed explicitly.  Returns `(eof, buffered, fails, now)` after the
call: the pre-deadline check, the full-quota `read_buffer` call, the
post-read deadline check, and on the success path
`sleep_ms((frame_end - now).num_milliseconds())`, whole milliseconds
truncated. -/
def frame (b : Buffered) (frame_sz : Nat) (frame_end : Int) (fails : Nat)
    (now : Int) : Bool × Buffered × Nat × Int :=
  if frame_end < now then
    (false, b, fails + 1, now)
  else
    let r := read_buffer b.loc b.chan frame_sz
    let now2 := now + (r.2.2 : Int)
    if frame_end < now2 then
      (r.1, r.2.1, fails + 1, now2)
    else
      let delay := (frame_end - now2) / 1000000
      if 0 < delay then
        (r.1, r.2.1, fails, now2 + delay * 1000000)
      else
        (r.1, r.2.1, fails, now2)

/-- The state of one playback session: the mutable locals of `play`
(`src/main.rs` lines 170-195).  `done = true` means the loop has exited
and `report` has run. -/
structure Session where
  total    : Nat
  fails    : Nat
  frameEnd : Int
  now      : Int
  buf      : Buffered
  done     : Bool
deriving DecidableEq

/-- One iteration of the `loop` in `play` (`src/main.rs` lines 183-194):
`total += 1`, call `frame` with quota `config.framesize`, exit (report) on
EOF, exit (report) when `now > end_time`, otherwise
`frame_end = frame_end + frame_len`.  A finished session is left
unchanged. -/
def sessionStep (frame_sz : Nat) (frame_len end_time : Int) (s : Session) :
    Session :=
  if s.done then s
  else
    let r := frame s.buf frame_sz s.frameEnd s.fails s.now
    if r.1 then
      { total := s.total + 1, fails := r.2.2.1, frameEnd := s.frameEnd,
        now := r.2.2.2, buf := r.2.1, done := true }
    else if end_time < r.2.2.2 then
      { total := s.total + 1, fails := r.2.2.1, frameEnd := s.frameEnd,
        now := r.2.2.2, buf := r.2.1, done := true }
    else
      { total := s.total + 1, fails := r.2.2.1,
        frameEnd := s.frameEnd + frame_len,
        now := r.2.2.2, buf := r.2.1, done := false }

/-- The session state after `n` iterations of the `play` loop. -/
def sessionRun (frame_sz : Nat) (frame_len end_time : Int) (s : Session) :
    Nat → Session
  | 0 => s
  | n + 1 => sessionStep frame_sz frame_len end_time
      (sessionRun frame_sz frame_len end_time s n)

/-- The initial session state built by `play` (`src/main.rs` lines
172-179): `total = 0`, `fails = 0`, `frame_end = start + frame_len`,
`Buffered { local: 0, chan: rx }`. -/
def initSession (start frame_len : Int) (chan : List (Nat × Nat)) :
    Session :=
  { total := 0, fails := 0, frameEnd := start + frame_len, now := start,
    buf := ⟨0, chan⟩, done := false }

/-- The per-frame duration computed by `play` at `src/main.rs` line 174,
`Duration::microseconds((1e6 / config.framerate) as i64)`, in
nanoseconds: `1e6 / rate` truncated to whole microseconds (the floor, for
a positive rate), then scaled to nanoseconds. -/
def frameLenNs (rate : ℚ) : Int := 1000 * ⌊(10 ^ 6 : ℚ) / rate⌋

/-- The byte quota the session passes to `frame` at `src/main.rs` line
185: the call is `frame(&mut buffered, config.framesize, ...)`, so the
quota is `framesize` at every frame index. -/
def byteQuota (framesize : Nat) (_i : Nat) : Nat := framesize

/-- Modelled from the words of the spec (section 4.1), for comparison
with `byteQuota`: let `diff = rate - i`; if `diff ≥ 1.0` the quota is
`frame_size`, otherwise `floor(frame_size * diff)`. -/
def specByteQuota (rate : ℚ) (framesize : Nat) (i : Nat) : Nat :=
  if (1 : ℚ) ≤ rate - i then framesize
  else (⌊(framesize : ℚ) * (rate - i)⌋).toNat

/-- Total bytes a channel still holds. -/
def sumBytes (chan : List (Nat × Nat)) : Nat := (chan.map Prod.snd).sum

/-- Total bytes available to the pacing side: local credit plus
everything the background reader will still deliver. -/
def bufTotal (b : Buffered) : Nat := b.loc + sumBytes b.chan

/-- The target work-file size computed by `verify_workfile`
(`src/main.rs` lines 123-125):
`(framerate.ceil() as usize) * framesize * (timelimit.num_seconds() + 1)`. -/
def desired_sz (rate : ℚ) (framesize timelimit_s : Nat) : Nat :=
  (⌈rate⌉).toNat * framesize * (timelimit_s + 1)

/-- The `while sofar < desired_sz` loop of `verify_workfile`
(`src/main.rs` lines 139-142): each iteration appends one pseudorandom
buffer of `1024*1024` bytes (`fd.write(&buf)` is modelled as writing the
whole buffer); the byte contents are opaque here. -/
def grow (sofar desired : Nat) : Nat :=
  if h : sofar < desired then grow (sofar + 1048576) desired else sofar
termination_by desired - sofar
decreasing_by omega

/-- `verify_workfile` from `src/main.rs` lines 120-146, for one file.
`meta` is the metadata of the file: `none` when `metadata` fails (the
file is missing, `sofar = 0`), `some n` for an existing file of `n`
bytes.  Returns the Rust return value (`true` when the file was already
large enough) paired with the resulting file size. -/
def verify_workfile (rate : ℚ) (framesize timelimit_s : Nat)
    (meta : Option Nat) : Bool × Nat :=
  let desired := desired_sz rate framesize timelimit_s
  let sofar := match meta with
    | none => 0
    | some n => n
  if sofar < desired then (false, grow sofar desired) else (true, sofar)

/-- The provisioning phase of `main` (`src/main.rs` lines 37-43) over the
per-thread work files: every file is verified (the source accumulates
`all = verify_workfile(&config, i) && all`, calling `verify_workfile`
unconditionally for every index), and playback threads are spawned only
when `all` remained true.  Returns (sessions spawned, final file
sizes). -/
def mainRun (rate : ℚ) (framesize timelimit_s : Nat)
    (files : List (Option Nat)) : Bool × List Nat :=
  let results := files.map (verify_workfile rate framesize timelimit_s)
  (results.all (fun r => r.1), results.map (fun r => r.2))

/-- Concrete session used in the counterexample for claim C7: frame rate
`2e6` frames per second, ten-byte frames, two pending 25-byte receives. -/
def sessionC7 : Session :=
  initSession 0 (frameLenNs (2 * 10 ^ 6)) [(0, 25), (0, 25)]

/-- Concrete session used in the counterexample for claim C2: frame rate
`5/2`, four-byte frames, four pending four-byte receives. -/
def sessionC2 : Session :=
  initSession 0 (frameLenNs (5 / 2)) [(0, 4), (0, 4), (0, 4), (0, 4)]

/-- Concrete session used in the counterexample for claim C1: frame rate
`3/2`, ten-byte frames, three pending 50-byte receives. -/
def sessionC1 : Session :=
  initSession 0 (frameLenNs (3 / 2)) [(0, 50), (0, 50), (0, 50)]

/- ------------------------------------------------------------------ -/
/- Helper lemmas (shared by several claims).                           -/
/- ------------------------------------------------------------------ -/

theorem frameLenNs_24 : frameLenNs 24 = 41666000 := by
  have h : ⌊(10 ^ 6 : ℚ) / 24⌋ = 41666 := by
    rw [Int.floor_eq_iff]
    constructor <;> norm_num
  unfold frameLenNs
  rw [h]
  decide

theorem frameLenNs_5_2 : frameLenNs (5 / 2) = 400000000 := by
  have h : ⌊(10 ^ 6 : ℚ) / (5 / 2)⌋ = 400000 := by
    rw [Int.floor_eq_iff]
    constructor <;> norm_num
  unfold frameLenNs
  rw [h]
  decide

theorem frameLenNs_2e6 : frameLenNs (2 * 10 ^ 6) = 0 := by
  have h : ⌊(10 ^ 6 : ℚ) / (2 * 10 ^ 6)⌋ = 0 := by
    rw [Int.floor_eq_iff]
    constructor <;> norm_num
  unfold frameLenNs
  rw [h]
  decide

theorem frameLenNs_3_2 : frameLenNs (3 / 2) = 666666000 := by
  have h : ⌊(10 ^ 6 : ℚ) / (3 / 2)⌋ = 666666 := by
    rw [Int.floor_eq_iff]
    constructor <;> norm_num
  unfold frameLenNs
  rw [h]
  decide

/-- With a positive rate of at most `10^6` frames per second, the
truncated per-frame duration is at least one microsecond. -/
theorem frameLenNs_pos (rate : ℚ) (h1 : 0 < rate) (h2 : rate ≤ 10 ^ 6) :
    0 < frameLenNs rate := by
  unfold frameLenNs
  have hq : (1 : ℚ) ≤ (10 ^ 6 : ℚ) / rate := (one_le_div h1).mpr h2
  have hf : (1 : ℤ) ≤ ⌊(10 ^ 6 : ℚ) / rate⌋ := by
    rw [Int.le_floor]
    exact_mod_cast hq
  omega

/-- A finished session is left unchanged by further loop steps. -/
theorem sessionStep_of_done (frame_sz : Nat) (frame_len end_time : Int)
    (s : Session) (h : s.done = true) :
    sessionStep frame_sz frame_len end_time s = s := by
  unfold sessionStep
  rw [if_pos h]

/-- When the deadline has not yet passed on entry, `frame` reports the
EOF flag computed by `read_buffer`. -/
theorem frame_fst (b : Buffered) (frame_sz : Nat) (frame_end : Int)
    (fails : Nat) (now : Int) (h : ¬ frame_end < now) :
    (frame b frame_sz frame_end fails now).1 =
      (read_buffer b.loc b.chan frame_sz).1 := by
  unfold frame
  rw [if_neg h]
  dsimp only
  split
  · rfl
  · split <;> rfl

/-- When the deadline has not yet passed on entry, `frame` leaves the
buffer in exactly the state `read_buffer` produced. -/
theorem frame_buf (b : Buffered) (frame_sz : Nat) (frame_end : Int)
    (fails : Nat) (now : Int) (h : ¬ frame_end < now) :
    (frame b frame_sz frame_end fails now).2.1 =
      (read_buffer b.loc b.chan frame_sz).2.1 := by
  unfold frame
  rw [if_neg h]
  dsimp only
  split
  · rfl
  · split <;> rfl

/-- A running session step stores the buffer state produced by `frame`. -/
theorem sessionStep_buf (frame_sz : Nat) (frame_len end_time : Int)
    (s : Session) (h : s.done = false) :
    (sessionStep frame_sz frame_len end_time s).buf =
      (frame s.buf frame_sz s.frameEnd s.fails s.now).2.1 := by
  unfold sessionStep
  rw [if_neg (by rw [h]; exact Bool.false_ne_true)]
  dsimp only
  split
  · rfl
  · split <;> rfl

/-- A running session step increments `total`, whichever exit is taken. -/
theorem sessionStep_total (frame_sz : Nat) (frame_len end_time : Int)
    (s : Session) (h : s.done = false) :
    (sessionStep frame_sz frame_len end_time s).total = s.total + 1 := by
  unfold sessionStep
  rw [if_neg (by rw [h]; exact Bool.false_ne_true)]
  dsimp only
  split
  · rfl
  · split <;> rfl

/-- A step that leaves the session running advanced the deadline by
exactly `frame_len`. -/
theorem sessionStep_not_done (frame_sz : Nat) (frame_len end_time : Int)
    (s : Session) (h1 : s.done = false)
    (h2 : (sessionStep frame_sz frame_len end_time s).done = false) :
    (sessionStep frame_sz frame_len end_time s).frameEnd
      = s.frameEnd + frame_len := by
  unfold sessionStep at h2 ⊢
  rw [if_neg (by rw [h1]; exact Bool.false_ne_true)] at h2 ⊢
  dsimp only at h2 ⊢
  by_cases c1 : (frame s.buf frame_sz s.frameEnd s.fails s.now).1 = true
  · rw [if_pos c1] at h2
    simp at h2
  · rw [if_neg c1] at h2 ⊢
    by_cases c2 :
        end_time < (frame s.buf frame_sz s.frameEnd s.fails s.now).2.2.2
    · rw [if_pos c2] at h2
      simp at h2
    · rw [if_neg c2]

/-- `read_buffer` never grows the channel. -/
theorem read_buffer_chan_length (loc : Nat) (chan : List (Nat × Nat))
    (amount : Nat) :
    (read_buffer loc chan amount).2.1.chan.length ≤ chan.length := by
  induction chan generalizing loc amount with
  | nil =>
    unfold read_buffer
    split <;> simp
  | cons hd rest ih =>
    unfold read_buffer
    split
    · simp
    · exact le_trans (ih hd.2 (amount - loc)) (Nat.le_succ rest.length)

/-- Byte conservation for `read_buffer`: when the request is satisfied
(no EOF), exactly `amount` bytes disappear from the combined credit and
channel. -/
theorem read_buffer_bytes (loc : Nat) (chan : List (Nat × Nat))
    (amount : Nat) (h : (read_buffer loc chan amount).1 = false) :
    loc + sumBytes chan =
      amount + bufTotal (read_buffer loc chan amount).2.1 := by
  induction chan generalizing loc amount with
  | nil =>
    by_cases hlt : amount < loc
    · unfold read_buffer at h ⊢
      rw [if_pos hlt] at h ⊢
      simp only [bufTotal, sumBytes]
      omega
    · unfold read_buffer at h
      rw [if_neg hlt] at h
      simp at h
  | cons hd rest ih =>
    by_cases hlt : amount < loc
    · unfold read_buffer at h ⊢
      rw [if_pos hlt] at h ⊢
      simp only [bufTotal, sumBytes]
      omega
    · unfold read_buffer at h ⊢
      rw [if_neg hlt] at h ⊢
      dsimp only at h ⊢
      have hle : loc ≤ amount := Nat.le_of_not_lt hlt
      have ihh := ih hd.2 (amount - loc) h
      simp only [bufTotal, sumBytes, List.map_cons, List.sum_cons] at ihh ⊢
      omega

/-- The `while` loop of `verify_workfile` always reaches the desired
size. -/
theorem grow_ge (sofar desired : Nat) : desired ≤ grow sofar desired := by
  have main : ∀ fuel sofar, desired - sofar ≤ fuel →
      desired ≤ grow sofar desired := by
    intro fuel
    induction fuel with
    | zero =>
      intro sofar h0
      unfold grow
      split
      · omega
      · omega
    | succ k ih =>
      intro sofar hf
      unfold grow
      split
      · rename_i hlt
        exact ih (sofar + 1048576) (by omega)
      · omega
  exact main desired sofar (by omega)

/-- In chunk lists of the shape `List.replicate k (10, 1)` with a fresh
one-byte credit, `read_buffer` drains every chunk, blocking ten
nanoseconds per receive, and ends at the closed channel. -/
theorem read_buffer_replicate (k : Nat) :
    read_buffer 1 (List.replicate k (10, 1)) (k + 1) =
      (true, ⟨1, []⟩, 10 * k) := by
  induction k with
  | zero => decide
  | succ n ih =>
    rw [List.replicate_succ]
    unfold read_buffer
    rw [if_neg (by omega)]
    simp only
    rw [show n + 1 + 1 - 1 = n + 1 by omega, ih]
    show (true, ({ loc := 1, chan := [] } : Buffered), 10 + 10 * n)
      = (true, { loc := 1, chan := [] }, 10 * (n + 1))
    rw [show 10 + 10 * n = 10 * (n + 1) by omega]

/- ------------------------------------------------------------------ -/
/- Claim theorems.                                                     -/
/- ------------------------------------------------------------------ -/

/-- Claim C1, counterexample.  The claim says that for cycle indices
before the last the budget is `1e9/rate` nanoseconds and that the last
index of each cycle gets whatever real time remains in the current
one-second window (so each cycle ends exactly at a one-second boundary).
At rate `3/2` the code instead gives the per-frame budget
`frameLenNs (3/2) = 666666000` nanoseconds, which is not
`1e9/(3/2) = 666666666.66` nanoseconds, and the second frame of the first
cycle (the last of that cycle, since the cycle length is
`ceil(3/2) = 2`) is given the deadline `1333332000` nanoseconds, not the
end `10^9` of the one-second window. -/
theorem C1_counterexample :
    (⌈(3 / 2 : ℚ)⌉ = 2) ∧
    ((frameLenNs (3 / 2) : ℚ) ≠ 10 ^ 9 / (3 / 2)) ∧
    (sessionRun 10 (frameLenNs (3 / 2)) (10 ^ 12) sessionC1 1).done
      = false ∧
    (sessionRun 10 (frameLenNs (3 / 2)) (10 ^ 12) sessionC1 1).frameEnd
      = 1333332000 ∧
    (1333332000 : Int) ≠ 10 ^ 9 := by
  refine ⟨?_, ?_, ?_, ?_, by decide⟩
  · rw [Int.ceil_eq_iff]
    norm_num
  · rw [frameLenNs_3_2]
    norm_num
  · unfold sessionC1
    rw [frameLenNs_3_2]
    decide
  · unfold sessionC1
    rw [frameLenNs_3_2]
    decide

/-- Claim C1, amended: every frame of a session receives the same
constant time budget `frameLenNs rate = 1000 * ⌊10^6/rate⌋` nanoseconds
(`1e6/rate` truncated to whole microseconds); the deadline handed to the
frame call after `n` completed iterations is
`start + (n+1) * frameLenNs rate`.  There is no per-cycle
resynchronization to the one-second boundary and no special budget for
the last index of a cycle. -/
theorem C1_constant_budget (rate : ℚ) (frame_sz : Nat) (end_time start : Int)
    (chan : List (Nat × Nat)) (n : Nat)
    (h : (sessionRun frame_sz (frameLenNs rate) end_time
        (initSession start (frameLenNs rate) chan) n).done = false) :
    (sessionRun frame_sz (frameLenNs rate) end_time
        (initSession start (frameLenNs rate) chan) n).frameEnd
      = start + (n + 1) * frameLenNs rate := by
  induction n with
  | zero =>
    simp [sessionRun, initSession]
  | succ m ih =>
    have hstep : sessionRun frame_sz (frameLenNs rate) end_time
        (initSession start (frameLenNs rate) chan) (m + 1)
        = sessionStep frame_sz (frameLenNs rate) end_time
          (sessionRun frame_sz (frameLenNs rate) end_time
            (initSession start (frameLenNs rate) chan) m) := rfl
    cases hm : (sessionRun frame_sz (frameLenNs rate) end_time
        (initSession start (frameLenNs rate) chan) m).done with
    | true =>
      exfalso
      rw [hstep, sessionStep_of_done _ _ _ _ hm, hm] at h
      exact Bool.noConfusion h
    | false =>
      have hfe := ih hm
      rw [hstep] at h ⊢
      rw [sessionStep_not_done _ _ _ _ hm h, hfe]
      push_cast
      ring

/-- Claim C1 witness: a concrete run at rate 24 reaching the theorem at
`n = 1`. -/
theorem C1_witness :
    (sessionRun 10 (frameLenNs 24) (10 ^ 12)
        (initSession 0 (frameLenNs 24) [(0, 50)]) 1).done = false ∧
    (sessionRun 10 (frameLenNs 24) (10 ^ 12)
        (initSession 0 (frameLenNs 24) [(0, 50)]) 1).frameEnd
      = 0 + (1 + 1) * frameLenNs 24 := by
  have h : (sessionRun 10 (frameLenNs 24) (10 ^ 12)
      (initSession 0 (frameLenNs 24) [(0, 50)]) 1).done = false := by
    rw [frameLenNs_24]
    decide
  exact ⟨h, C1_constant_budget 24 10 (10 ^ 12) 0 [(0, 50)] 1 h⟩

/-- Claim C2, counterexample.  The claim says that at a non-integral rate
exactly one frame per cycle requests strictly fewer than `frame_size`
bytes, namely `floor(frame_size * (rate - i))` at the cycle index `i`
with `rate - i < 1`.  At rate `5/2` (cycle length `ceil(5/2) = 3`) with
`frame_size = 4` that predicts a two-byte quota at cycle index 2, but the
call site passes `config.framesize` unconditionally, and a concrete
session run confirms it: each of the first three frames consumes exactly
four bytes from the prefetch pipeline (16, then 12, 8, 4 bytes left),
including the third frame (cycle index 2). -/
theorem C2_counterexample :
    byteQuota 4 2 = 4 ∧
    specByteQuota (5 / 2) 4 2 = 2 ∧
    (⌈(5 / 2 : ℚ)⌉ = 3) ∧
    bufTotal (sessionRun 4 (frameLenNs (5 / 2)) (10 ^ 10) sessionC2 2).buf
      = 8 ∧
    bufTotal (sessionRun 4 (frameLenNs (5 / 2)) (10 ^ 10) sessionC2 3).buf
      = 4 ∧
    (sessionRun 4 (frameLenNs (5 / 2)) (10 ^ 10) sessionC2 3).done
      = false := by
  refine ⟨rfl, ?_, ?_, ?_, ?_, ?_⟩
  · unfold specByteQuota
    rw [if_neg (by push_cast; norm_num)]
    have hfl : ⌊((4 : Nat) : ℚ) * ((5 / 2 : ℚ) - ((2 : Nat) : ℚ))⌋ = 2 := by
      rw [Int.floor_eq_iff]
      constructor
      · push_cast
        norm_num
      · push_cast
        norm_num
    rw [hfl]
    rfl
  · rw [Int.ceil_eq_iff]
    norm_num
  · unfold sessionC2
    rw [frameLenNs_5_2]
    decide
  · unfold sessionC2
    rw [frameLenNs_5_2]
    decide
  · unfold sessionC2
    rw [frameLenNs_5_2]
    decide

/-- Claim C2, amended: every frame requests exactly `frame_size` bytes
from the data source, regardless of the frame index and of the
fractional part of the rate: whenever a frame starts before its deadline
and its read completes without end of stream, exactly `frame_size` bytes
are consumed from the prefetch pipeline (local credit plus pending
channel bytes shrink by exactly `frame_size`). -/
theorem C2_full_quota (frame_sz : Nat) (frame_len end_time : Int)
    (s : Session)
    (h1 : s.done = false)
    (h2 : ¬ s.frameEnd < s.now)
    (h3 : (read_buffer s.buf.loc s.buf.chan frame_sz).1 = false) :
    bufTotal s.buf
      = frame_sz + bufTotal (sessionStep frame_sz frame_len end_time s).buf
    := by
  rw [sessionStep_buf _ _ _ _ h1, frame_buf _ _ _ _ _ h2]
  have hcons := read_buffer_bytes s.buf.loc s.buf.chan frame_sz h3
  unfold bufTotal at hcons ⊢
  omega

/-- Claim C2 witness: a concrete step consuming exactly the four-byte
quota. -/
theorem C2_witness :
    bufTotal (Session.mk 0 0 400000000 0 ⟨0, [(0, 4), (0, 4)]⟩ false).buf
      = 4 + bufTotal (sessionStep 4 400000000 (10 ^ 10)
        (Session.mk 0 0 400000000 0 ⟨0, [(0, 4), (0, 4)]⟩ false)).buf := by
  exact C2_full_quota 4 400000000 (10 ^ 10)
    (Session.mk 0 0 400000000 0 ⟨0, [(0, 4), (0, 4)]⟩ false)
    (by decide) (by decide) (by decide)

/-- Claim C3, counterexample.  The claim says that when the deadline
passes before the quota is met the reader returns immediately without
reading the remainder of the quota.  Concretely: deadline 10 ns, quota
100 bytes, two queued receives of 60 bytes costing 50 ns each.  The
first receive completes at 50 ns, past the deadline, with only 60 of 100
bytes; yet the code performs the second receive as well, returning at
100 ns with the channel drained (`chan = []`) and the full quota
consumed. -/
theorem C3_counterexample :
    frame ⟨0, [(50, 60), (50, 60)]⟩ 100 10 0 0
      = (false, ⟨20, []⟩, 1, 100) ∧
    (10 : Int) < 50 ∧ (60 : Nat) < 100 := by
  decide

/-- Claim C3, amended: when the deadline passes after a frame has begun
but before its quota read finishes, the code increments the failure
counter and does not sleep, but it does not return immediately: the
in-progress `read_buffer` call runs to completion (full quota or end of
stream), and the frame returns only after all of the needed receives.
Only a frame whose deadline had already passed before it began reads
nothing. -/
theorem C3_miss_completes_quota (b : Buffered) (frame_sz : Nat)
    (frame_end : Int) (fails : Nat) (now : Int)
    (h1 : ¬ frame_end < now)
    (h2 : frame_end
      < now + ((read_buffer b.loc b.chan frame_sz).2.2 : Int)) :
    frame b frame_sz frame_end fails now
      = ((read_buffer b.loc b.chan frame_sz).1,
         (read_buffer b.loc b.chan frame_sz).2.1,
         fails + 1,
         now + ((read_buffer b.loc b.chan frame_sz).2.2 : Int)) := by
  unfold frame
  rw [if_neg h1]
  dsimp only
  rw [if_pos h2]

/-- Claim C3 witness: deadline 10 ns, a single 50 ns receive; the frame
completes the read, returns at 50 ns with `fails` incremented and no
sleep. -/
theorem C3_witness :
    (¬ (10 : Int) < 0) ∧
    ((10 : Int) < 0 + ((read_buffer 0 [(50, 60)] 10).2.2 : Int)) ∧
    frame ⟨0, [(50, 60)]⟩ 10 10 0 0
      = ((read_buffer 0 [(50, 60)] 10).1,
         (read_buffer 0 [(50, 60)] 10).2.1, 0 + 1,
         0 + ((read_buffer 0 [(50, 60)] 10).2.2 : Int)) := by
  refine ⟨by decide, by decide, ?_⟩
  exact C3_miss_completes_quota ⟨0, [(50, 60)]⟩ 10 10 0 0 (by decide)
    (by decide)

/-- Claim C4, counterexample.  The claim says elapsed time is compared
against the budget after every chunk read, so a frame blocks past its
deadline by at most one chunk-read duration.  Concretely: deadline 5 ns,
quota 25 bytes, three queued ten-byte receives costing 30 ns each.  The
code blocks through all three receives and returns at 90 ns, which is
more than one chunk-read duration (30 ns) past the deadline. -/
theorem C4_counterexample :
    frame ⟨0, [(30, 10), (30, 10), (30, 10)]⟩ 25 5 0 0
      = (false, ⟨5, []⟩, 1, 90) ∧
    (5 : Int) + 30 < 90 := by
  decide

/-- Claim C4, amended: `read_buffer` contains no time check at all; the
elapsed time is compared against the budget only before the quota read
starts and once after the entire quota read finishes, so a frame can
block past its deadline by the combined duration of all its chunk reads.
The family below makes the overrun unbounded: with `n + 1` queued
one-byte receives of 10 ns each and deadline 0, the frame returns only
at `10 * (n + 1)` ns. -/
theorem C4_unbounded_overrun (n : Nat) :
    frame ⟨0, List.replicate (n + 1) (10, 1)⟩ (n + 1) 0 0 0
      = (true, ⟨1, []⟩, 1, ((10 * (n + 1) : Nat) : Int)) := by
  have hrb : read_buffer 0 (List.replicate (n + 1) (10, 1)) (n + 1)
      = (true, ⟨1, []⟩, 10 * (n + 1)) := by
    rw [List.replicate_succ]
    unfold read_buffer
    rw [if_neg (by omega)]
    simp only
    rw [Nat.sub_zero, read_buffer_replicate n]
    show (true, ({ loc := 1, chan := [] } : Buffered), 10 + 10 * n)
      = (true, { loc := 1, chan := [] }, 10 * (n + 1))
    rw [show 10 + 10 * n = 10 * (n + 1) by omega]
  unfold frame
  rw [if_neg (by omega)]
  dsimp only
  rw [hrb]
  dsimp only
  rw [if_pos (by positivity)]
  norm_num

/-- Claim C5, counterexample.  The claim says the pacing side blocks on
a queue receive only when the local credit is insufficient, and that a
covered request is satisfied by decrementing credit alone.  But the code
guard is `buffered.local > amount`, strict: with credit 5 and request 5
(credit exactly covers the request) the code still performs a receive —
against a closed queue it reports end of stream with the credit not
decremented, and against an open queue it consumes the queued entry and
blocks for its 7 ns duration. -/
theorem C5_counterexample :
    read_buffer 5 [] 5 = (true, ⟨5, []⟩, 0) ∧
    read_buffer 5 [(7, 9)] 5 = (false, ⟨9, []⟩, 7) := by
  decide

/-- Claim C5, amended: the pacing side satisfies a request from local
credit alone exactly when the credit strictly exceeds the requested
amount (`local > amount`); whenever `local ≤ amount` — including when
the credit exactly covers the request — it touches the handoff queue:
it reports end of stream on a closed queue, and otherwise consumes at
least one queued entry. -/
theorem C5_credit (loc : Nat) (chan : List (Nat × Nat)) (amount : Nat) :
    (amount < loc →
      read_buffer loc chan amount = (false, ⟨loc - amount, chan⟩, 0)) ∧
    (loc ≤ amount → chan = [] →
      read_buffer loc chan amount = (true, ⟨loc, []⟩, 0)) ∧
    (loc ≤ amount → chan ≠ [] →
      (read_buffer loc chan amount).2.1.chan.length < chan.length) := by
  refine ⟨?_, ?_, ?_⟩
  · intro h
    unfold read_buffer
    rw [if_pos h]
  · intro h hc
    subst hc
    unfold read_buffer
    rw [if_neg (by omega)]
  · intro h hc
    match chan with
    | [] => exact absurd rfl hc
    | (c, more) :: rest =>
      unfold read_buffer
      rw [if_neg (by omega)]
      simp only [List.length_cons]
      exact Nat.lt_succ_of_le
        (read_buffer_chan_length more rest (amount - loc))

/-- Claim C5 witness: credit 10 strictly exceeds the request 3, so the
request is served by decrementing credit, without touching the queue. -/
theorem C5_witness :
    (3 < 10) ∧
    read_buffer 10 [(1, 1)] 3 = (false, ⟨7, [(1, 1)]⟩, 0) := by
  exact ⟨by decide, (C5_credit 10 [(1, 1)] 3).1 (by decide)⟩

/-- Claim C6 (confirmed): if a frame begins before its deadline and its
quota read reaches end of stream (the queue is closed before the quota
is met), the frame reports end of stream — whether or not the deadline
has been exceeded by then, since both the miss branch and the success
branch return the EOF flag of `read_buffer`. -/
theorem C6_eof_propagates (b : Buffered) (frame_sz : Nat)
    (frame_end : Int) (fails : Nat) (now : Int)
    (h1 : ¬ frame_end < now)
    (h2 : (read_buffer b.loc b.chan frame_sz).1 = true) :
    (frame b frame_sz frame_end fails now).1 = true := by
  rw [frame_fst _ _ _ _ _ h1]
  exact h2

/-- Claim C6 witness: an empty channel with a one-byte quota reports end
of stream. -/
theorem C6_witness :
    (¬ (5 : Int) < 0) ∧
    ((read_buffer 0 ([] : List (Nat × Nat)) 1).1 = true) ∧
    (frame ⟨0, []⟩ 1 5 0 0).1 = true := by
  exact ⟨by decide, by decide,
    C6_eof_propagates ⟨0, []⟩ 1 5 0 0 (by decide) (by decide)⟩

/-- Claim C7, counterexample.  The claim says deadlines are strictly
increasing for every positive configured frame rate.  At the positive
rate `2e6` the truncated per-frame duration `(1e6 / 2e6) as i64` is zero,
so `frame_end` never advances: the first and second frame calls of the
session below (both made, since the session is still running) receive
the same deadline. -/
theorem C7_counterexample :
    ((0 : ℚ) < 2 * 10 ^ 6) ∧
    (sessionRun 10 (frameLenNs (2 * 10 ^ 6)) (10 ^ 9) sessionC7 1).done
      = false ∧
    (sessionRun 10 (frameLenNs (2 * 10 ^ 6)) (10 ^ 9) sessionC7 2).done
      = false ∧
    (sessionRun 10 (frameLenNs (2 * 10 ^ 6)) (10 ^ 9) sessionC7 1).frameEnd
      = (sessionRun 10 (frameLenNs (2 * 10 ^ 6)) (10 ^ 9) sessionC7 0).frameEnd
    := by
  refine ⟨by norm_num, ?_, ?_, ?_⟩
  · unfold sessionC7
    rw [frameLenNs_2e6]
    decide
  · unfold sessionC7
    rw [frameLenNs_2e6]
    decide
  · unfold sessionC7
    rw [frameLenNs_2e6]
    decide

/-- Claim C7, amended: within one session the deadlines passed to
successive frame calls form a strictly increasing sequence provided the
positive configured rate is at most `10^6` frames per second (so that
the truncated per-frame duration `(1e6 / rate) as i64` is at least one
microsecond); for larger rates the truncation yields zero and the
deadline sequence is constant, merely non-decreasing. -/
theorem C7_deadlines_increase (rate : ℚ) (frame_sz : Nat)
    (end_time : Int) (s : Session) (n : Nat)
    (h1 : 0 < rate) (h2 : rate ≤ 10 ^ 6)
    (h : (sessionRun frame_sz (frameLenNs rate) end_time s (n + 1)).done
      = false) :
    (sessionRun frame_sz (frameLenNs rate) end_time s n).frameEnd
      < (sessionRun frame_sz (frameLenNs rate) end_time s (n + 1)).frameEnd
    := by
  have hstep : sessionRun frame_sz (frameLenNs rate) end_time s (n + 1)
      = sessionStep frame_sz (frameLenNs rate) end_time
        (sessionRun frame_sz (frameLenNs rate) end_time s n) := rfl
  cases hm : (sessionRun frame_sz (frameLenNs rate) end_time s n).done with
  | true =>
    exfalso
    rw [hstep, sessionStep_of_done _ _ _ _ hm, hm] at h
    exact Bool.noConfusion h
  | false =>
    rw [hstep] at h ⊢
    rw [sessionStep_not_done _ _ _ _ hm h]
    exact lt_add_of_pos_right _ (frameLenNs_pos rate h1 h2)

/-- Claim C7 witness: at rate 24 the second deadline strictly exceeds
the first. -/
theorem C7_witness :
    ((0 : ℚ) < 24) ∧
    (sessionRun 10 (frameLenNs 24) (10 ^ 12)
        (initSession 0 (frameLenNs 24) [(0, 60)]) 1).done = false ∧
    (sessionRun 10 (frameLenNs 24) (10 ^ 12)
        (initSession 0 (frameLenNs 24) [(0, 60)]) 0).frameEnd
      < (sessionRun 10 (frameLenNs 24) (10 ^ 12)
        (initSession 0 (frameLenNs 24) [(0, 60)]) 1).frameEnd := by
  have h : (sessionRun 10 (frameLenNs 24) (10 ^ 12)
      (initSession 0 (frameLenNs 24) [(0, 60)]) 1).done = false := by
    rw [frameLenNs_24]
    decide
  exact ⟨by norm_num, h,
    C7_deadlines_increase 24 10 (10 ^ 12)
      (initSession 0 (frameLenNs 24) [(0, 60)]) 0 (by norm_num)
      (by norm_num) h⟩

/-- Claim C8 (confirmed): the loop in `play` increments `total` before
the first `frame` call and exits only afterwards, so any session that
reaches `report` (modelled by `done = true`) has `total ≥ 1`, and the
printed percentage `100 * fails / total` never divides by zero. -/
theorem C8_total_pos (frame_sz : Nat) (frame_len end_time start : Int)
    (chan : List (Nat × Nat)) (n : Nat)
    (h : (sessionRun frame_sz frame_len end_time
        (initSession start frame_len chan) n).done = true) :
    1 ≤ (sessionRun frame_sz frame_len end_time
        (initSession start frame_len chan) n).total := by
  induction n with
  | zero =>
    exact absurd h (by simp [sessionRun, initSession])
  | succ m ih =>
    have hstep : sessionRun frame_sz frame_len end_time
        (initSession start frame_len chan) (m + 1)
        = sessionStep frame_sz frame_len end_time
          (sessionRun frame_sz frame_len end_time
            (initSession start frame_len chan) m) := rfl
    cases hm : (sessionRun frame_sz frame_len end_time
        (initSession start frame_len chan) m).done with
    | true =>
      rw [hstep, sessionStep_of_done _ _ _ _ hm]
      exact ih hm
    | false =>
      rw [hstep, sessionStep_total _ _ _ _ hm]
      omega

/-- Claim C8 witness: a session that hits end of stream on its very
first frame reports with `total = 1`. -/
theorem C8_witness :
    (sessionRun 1 5 100 (initSession 0 5 []) 1).done = true ∧
    1 ≤ (sessionRun 1 5 100 (initSession 0 5 []) 1).total := by
  exact ⟨by decide, C8_total_pos 1 5 100 0 [] 1 (by decide)⟩

/-- Claim C9 (confirmed): a frame invoked after its deadline has already
passed increments the failure counter and returns `false` (more data
available) at once: it performs no read, leaves the local credit and the
handoff queue untouched, and can never report end of stream. -/
theorem C9_pre_expired (b : Buffered) (frame_sz : Nat) (frame_end : Int)
    (fails : Nat) (now : Int) (h : frame_end < now) :
    frame b frame_sz frame_end fails now = (false, b, fails + 1, now) := by
  unfold frame
  rw [if_pos h]

/-- Claim C9 witness: a frame started 5 ns past its deadline fails
immediately with the buffer untouched. -/
theorem C9_witness :
    ((0 : Int) < 5) ∧
    frame ⟨3, [(1, 2)]⟩ 10 0 0 5 = (false, ⟨3, [(1, 2)]⟩, 0 + 1, 5) := by
  exact ⟨by decide, C9_pre_expired ⟨3, [(1, 2)]⟩ 10 0 0 5 (by decide)⟩

/-- Claim C10 (confirmed): with a positive rate and a positive frame
size, if any per-thread work file is missing or smaller than
`ceil(rate) * framesize * (timelimit + 1)` bytes, then no playback
session is spawned and every file ends at least at the desired size
(deficient ones having been created or extended by the one-megabyte
append loop); and when every file already meets the desired size, the
sessions are spawned and no file is touched. -/
theorem C10_provisioning (rate : ℚ) (framesize timelimit_s : Nat)
    (files : List (Option Nat))
    (hr : 0 < rate) (hfs : 0 < framesize) :
    ((∃ m ∈ files, m = none
        ∨ m.getD 0 < desired_sz rate framesize timelimit_s) →
      (mainRun rate framesize timelimit_s files).1 = false ∧
      ∀ sz ∈ (mainRun rate framesize timelimit_s files).2,
        desired_sz rate framesize timelimit_s ≤ sz) ∧
    ((∀ m ∈ files, desired_sz rate framesize timelimit_s ≤ m.getD 0) →
      (mainRun rate framesize timelimit_s files).1 = true ∧
      (mainRun rate framesize timelimit_s files).2
        = files.map (fun m => m.getD 0)) := by
  have hdes : 0 < desired_sz rate framesize timelimit_s := by
    unfold desired_sz
    have hc : 0 < ⌈rate⌉ := Int.ceil_pos.mpr hr
    have hc2 : 0 < (⌈rate⌉).toNat := by omega
    positivity
  have hsofar : ∀ m : Option Nat,
      (match m with | none => 0 | some n => n) = m.getD 0 := by
    intro m
    cases m <;> rfl
  constructor
  · rintro ⟨m, hmem, hdef⟩
    have hm : (verify_workfile rate framesize timelimit_s m).1 = false := by
      unfold verify_workfile
      rw [hsofar m]
      rw [if_pos ?_]
      rcases hdef with hnone | hlt
      · subst hnone
        exact hdes
      · exact hlt
    constructor
    · show (List.map (verify_workfile rate framesize timelimit_s) files).all
        (fun r => r.1) = false
      rw [List.all_eq_false]
      exact ⟨verify_workfile rate framesize timelimit_s m,
        List.mem_map_of_mem _ hmem, by simp [hm]⟩
    · intro sz hsz
      have hsz2 : ∃ m2 ∈ files,
          (verify_workfile rate framesize timelimit_s m2).2 = sz := by
        have : sz ∈ List.map (fun r => r.2)
            (List.map (verify_workfile rate framesize timelimit_s) files) :=
          hsz
        rw [List.map_map, List.mem_map] at this
        obtain ⟨m2, hm2, he⟩ := this
        exact ⟨m2, hm2, he⟩
      obtain ⟨m2, _, hm2⟩ := hsz2
      rw [← hm2]
      unfold verify_workfile
      rw [hsofar m2]
      by_cases hlt : m2.getD 0 < desired_sz rate framesize timelimit_s
      · rw [if_pos hlt]
        exact grow_ge _ _
      · rw [if_neg hlt]
        omega
  · intro hall
    have hver : ∀ m ∈ files,
        verify_workfile rate framesize timelimit_s m = (true, m.getD 0) := by
      intro m hmem
      unfold verify_workfile
      rw [hsofar m]
      rw [if_neg (by have := hall m hmem; omega)]
    constructor
    · show (List.map (verify_workfile rate framesize timelimit_s) files).all
        (fun r => r.1) = true
      rw [List.all_eq_true]
      intro x hx
      obtain ⟨m, hmem, rfl⟩ := List.mem_map.mp hx
      rw [hver m hmem]
    · show List.map (fun r => r.2)
          (List.map (verify_workfile rate framesize timelimit_s) files)
        = files.map (fun m => m.getD 0)
      rw [List.map_map]
      refine List.map_congr_left (fun m hmem => ?_)
      show (verify_workfile rate framesize timelimit_s m).2 = m.getD 0
      rw [hver m hmem]

/-- Claim C10 witness: one missing file and one 100-byte file against a
desired size of 48 bytes: no sessions are spawned and both files end at
least 48 bytes long. -/
theorem C10_witness :
    (mainRun 24 2 0 [none, some 100]).1 = false ∧
    ∀ sz ∈ (mainRun 24 2 0 [none, some 100]).2,
      desired_sz 24 2 0 ≤ sz := by
  exact (C10_provisioning 24 2 0 [none, some 100] (by norm_num)
    (by decide)).1 ⟨none, by simp, Or.inl rfl⟩

end Vio
